import Mathlib

/-!
Shallow embedding of `src/memory_manager.py` (Qwen3-TTS repository):
the `MemoryManager` class, the `memory_monitor` decorator and the
`ModelManager` class, together with proofs about the spec's claims.

Modelling conventions:
* Python `float` values (times, intervals, byte budgets) are modelled as
  exact rationals `ℚ`; resident-set sizes (`rss`, integer byte counts)
  are `Nat`.
* Python `dict` is modelled as an association list `List (String × α)`
  in insertion order; `del d[k]` removes every pair with key `k`
  (a well-formed dict holds each key once, where the two agree).
* Calls into the runtime (`gc.collect`, `torch.cuda.empty_cache`,
  `model.cpu()`, factory invocation) are recorded as `Effect` values in
  an effect trace; the value `gc.collect()` returns and the wall-clock
  values returned by `time.time()` are inputs to the model.
* A Python function body with no `return` statement returns `None`,
  modelled as `(none : Option _)`.
-/

/-- Association-list lookup, first match wins (Python `d[k]` / `k in d`). -/
def dictLookup {α : Type} (d : List (String × α)) (k : String) : Option α :=
  match d with
  | [] => none
  | (k', v) :: rest => if k' = k then some v else dictLookup rest k

/-- Association-list update (Python `d[k] = v`): replace in place if the key
is present, append otherwise. -/
def dictSet {α : Type} (d : List (String × α)) (k : String) (v : α) :
    List (String × α) :=
  match d with
  | [] => [(k, v)]
  | (k', v') :: rest =>
      if k' = k then (k', v) :: rest else (k', v') :: dictSet rest k v

/-- Association-list deletion (Python `del d[k]`): removes every pair with
key `k`. -/
def dictErase {α : Type} (d : List (String × α)) (k : String) :
    List (String × α) :=
  match d with
  | [] => []
  | (k', v) :: rest =>
      if k' = k then dictErase rest k else (k', v) :: dictErase rest k

/-- Python `list(d.keys())`. -/
def dictKeys {α : Type} (d : List (String × α)) : List String :=
  d.map Prod.fst

/-- An opaque model handle as produced by a loader factory.  `hasCpu` and
`hasEval` model `hasattr(model, "cpu")` / `hasattr(model, "eval")`; `id`
distinguishes handle instances. -/
structure Handle where
  id : Nat
  hasCpu : Bool
  hasEval : Bool
  deriving DecidableEq

/-- A runtime side effect performed by the memory-management code. -/
inductive Effect where
  /-- One `gc.collect()` call. -/
  | gcCollect : Effect
  /-- One `torch.cuda.empty_cache()` call. -/
  | cudaEmptyCache : Effect
  /-- `model.cpu()` invoked on the handle with the given id, while it was
  stored under the given logical name. -/
  | cpuCalled : String → Nat → Effect
  /-- One invocation of a caller-supplied loader factory. -/
  | factoryInvoked : Effect
  deriving DecidableEq

/-- State of a `MemoryManager` instance (`src/memory_manager.py`,
lines 28-47).  The callback table always holds the two default events;
callback bodies are external and are not part of the state. -/
structure MemoryManager where
  /-- `self.max_memory_bytes = max_memory_gb * 1024 * 1024 * 1024`. -/
  max_memory_bytes : ℚ
  /-- `self.check_interval`. -/
  check_interval : ℚ
  /-- `self.monitoring`. -/
  monitoring : Bool
  /-- `self.last_gc_time` (initialised to `time.time()`). -/
  last_gc_time : ℚ
  /-- `self.gc_interval = 30.0`. -/
  gc_interval : ℚ
  deriving DecidableEq

/-- `MemoryManager.__init__` (lines 28-47): `now` is the value of
`time.time()` at construction; the Python defaults are
`max_memory_gb=8.0`, `check_interval=5.0`. -/
def MemoryManager.mkNew (now : ℚ) (max_memory_gb : ℚ := 8)
    (check_interval : ℚ := 5) : MemoryManager :=
  { max_memory_bytes := max_memory_gb * 1024 * 1024 * 1024
    check_interval := check_interval
    monitoring := false
    last_gc_time := now
    gc_interval := 30 }

/-- `MemoryManager.is_memory_critical` (lines 80-83): the resident size is
read from the process; here it is the argument `rss`. -/
def MemoryManager.is_memory_critical (m : MemoryManager) (rss : Nat) : Bool :=
  decide (m.max_memory_bytes * (9 / 10) < (rss : ℚ))

/-- `MemoryManager.is_memory_warning` (lines 85-88). -/
def MemoryManager.is_memory_warning (m : MemoryManager) (rss : Nat) : Bool :=
  decide (m.max_memory_bytes * (7 / 10) < (rss : ℚ))

/-- `MemoryManager.force_garbage_collection` (lines 90-105).
Inputs: `gcResult` is the object count returned by `gc.collect()`,
`cuda` is `torch.cuda.is_available()`, `now` the value of `time.time()`
at the end of the body.  Output: the Python return value (the body has no
`return`, so always `none`), the count that was logged, the effect trace
and the updated manager. -/
def MemoryManager.force_garbage_collection (m : MemoryManager)
    (gcResult : Nat) (cuda : Bool) (now : ℚ) :
    Option Nat × Nat × List Effect × MemoryManager :=
  (none, gcResult,
    Effect.gcCollect :: (if cuda then [Effect.cudaEmptyCache] else []),
    { m with last_gc_time := now })

/-- One iteration of `MemoryManager._monitor_loop` (lines 120-140),
restricted to its observable callback dispatch: given the resident size
of the snapshot and the current time, the list of callback event names
invoked in that tick, in order.  Callbacks fire only when
`time.time() - self.last_gc_time > self.gc_interval`. -/
def MemoryManager.monitorTickEvents (m : MemoryManager) (rss : Nat)
    (now : ℚ) : List String :=
  if m.gc_interval < now - m.last_gc_time then
    (if m.is_memory_warning rss then ["memory_warning"] else []) ++
    (if m.is_memory_critical rss then ["memory_critical"] else [])
  else []

/-- The `memory_monitor` decorator (lines 165-203) applied to one call of
the wrapped function.  Inputs: the decorator argument `max_memory_gb`,
`cuda = torch.cuda.is_available()`, the resident sizes read before and
after the call, and the outcome of the wrapped work (`Except.error e`
models the work raising exception `e`).  Output: the propagated outcome,
the effects performed before invoking the work, and the effects performed
after the work returned or raised. -/
def memory_monitor_run {α ε : Type} (max_memory_gb : ℚ) (cuda : Bool)
    (preRss : Nat) (work : Except ε α) (postRss : Nat) :
    Except ε α × List Effect × List Effect :=
  let cleanup : List Effect :=
    Effect.gcCollect :: (if cuda then [Effect.cudaEmptyCache] else [])
  let pre : List Effect :=
    if max_memory_gb * (8 / 10) < (preRss : ℚ) / (1024 * 1024 * 1024)
    then cleanup else []
  match work with
  | Except.error e => (Except.error e, pre, cleanup)
  | Except.ok v =>
      let post : List Effect :=
        if max_memory_gb < (postRss : ℚ) / (1024 * 1024 * 1024)
        then cleanup else []
      (Except.ok v, pre, post)

/-- State of a `ModelManager` instance (lines 206-213). -/
structure ModelManager where
  /-- `self.loaded_models`. -/
  loaded_models : List (String × Handle)
  /-- `self.model_access_time`. -/
  model_access_time : List (String × ℚ)
  /-- `self.max_idle_time = 300`. -/
  max_idle_time : ℚ
  /-- `self.memory_manager = MemoryManager()`. -/
  memory_manager : MemoryManager
  deriving DecidableEq

/-- `ModelManager.__init__` (lines 209-213): `now` is the construction
time passed to the inner `MemoryManager()`. -/
def ModelManager.mkNew (now : ℚ) : ModelManager :=
  { loaded_models := []
    model_access_time := []
    max_idle_time := 300
    memory_manager := MemoryManager.mkNew now }

/-- `ModelManager.unload_model` (lines 239-259).  `cuda` is
`torch.cuda.is_available()`.  If the name is absent the body does
nothing; otherwise `model.cpu()` is attempted when the handle has that
attribute (`del model` for `hasattr(model, "eval")` only drops the local
reference), the entry is removed from both tables and `gc.collect()`
(plus CUDA cache clearing) runs. -/
def ModelManager.unload_model (mm : ModelManager) (name : String)
    (cuda : Bool) : ModelManager × List Effect :=
  match dictLookup mm.loaded_models name with
  | none => (mm, [])
  | some model =>
      let cpuEff : List Effect :=
        if model.hasCpu then [Effect.cpuCalled name model.id] else []
      let lm := dictErase mm.loaded_models name
      let at' :=
        if (dictLookup mm.model_access_time name).isSome
        then dictErase mm.model_access_time name
        else mm.model_access_time
      ({ mm with loaded_models := lm, model_access_time := at' },
        cpuEff ++ Effect.gcCollect ::
          (if cuda then [Effect.cudaEmptyCache] else []))

/-- The `for model_name in idle_models: self.unload_model(model_name)`
loop at the end of `ModelManager._unload_idle_models` (lines 270-272). -/
def ModelManager.unloadNames (mm : ModelManager) (names : List String)
    (cuda : Bool) : ModelManager × List Effect :=
  match names with
  | [] => (mm, [])
  | n :: rest =>
      let r₁ := mm.unload_model n cuda
      let r₂ := r₁.1.unloadNames rest cuda
      (r₂.1, r₁.2 ++ r₂.2)

/-- `ModelManager._unload_idle_models` (lines 261-272): `now` is the
value of `time.time()` taken at the top of the body.  Names whose last
access is strictly more than `max_idle_time` in the past are collected in
table order, then each is unloaded. -/
def ModelManager.unload_idle_models (mm : ModelManager) (now : ℚ)
    (cuda : Bool) : ModelManager × List Effect :=
  mm.unloadNames
    (dictKeys (mm.model_access_time.filter
      (fun p => decide (mm.max_idle_time < now - p.2)))) cuda

/-- The memory-pressure block of `ModelManager.load_model`
(lines 224-227): when `is_memory_warning()` holds, run
`force_garbage_collection()` (the `gc.collect()` result count is
irrelevant here and fixed to 0) and then `_unload_idle_models()`.
`tGc` and `tEvict` are the `time.time()` reads of those two calls. -/
def ModelManager.pressureStep (mm : ModelManager) (rss : Nat)
    (cuda : Bool) (tGc tEvict : ℚ) : ModelManager × List Effect :=
  if mm.memory_manager.is_memory_warning rss then
    let fgc := mm.memory_manager.force_garbage_collection 0 cuda tGc
    let mm₁ : ModelManager := { mm with memory_manager := fgc.2.2.2 }
    let ev := mm₁.unload_idle_models tEvict cuda
    (ev.1, fgc.2.2.1 ++ ev.2)
  else (mm, ([] : List Effect))

/-- `ModelManager.load_model` (lines 215-237).  Inputs: the outcome of
`loader_func(*args, **kwargs)` (`Except.error e` models the factory
raising `e`), the resident size consulted by `is_memory_warning`, `cuda`,
and the three wall-clock reads: `tNow` (`current_time` at the top of the
body), `tGc` (inside `force_garbage_collection`) and `tEvict` (inside
`_unload_idle_models`).  Output: the propagated outcome, the state after
the call, and the effect trace. -/
def ModelManager.load_model {ε : Type} (mm : ModelManager) (name : String)
    (factory : Except ε Handle) (rss : Nat) (cuda : Bool)
    (tNow tGc tEvict : ℚ) :
    Except ε Handle × ModelManager × List Effect :=
  match dictLookup mm.loaded_models name with
  | some model =>
      (Except.ok model,
        { mm with model_access_time :=
            dictSet mm.model_access_time name tNow }, [])
  | none =>
      let step := mm.pressureStep rss cuda tGc tEvict
      match factory with
      | Except.error e =>
          (Except.error e, step.1, step.2 ++ [Effect.factoryInvoked])
      | Except.ok model =>
          (Except.ok model,
            { step.1 with
              loaded_models := dictSet step.1.loaded_models name model
              model_access_time :=
                dictSet step.1.model_access_time name tNow },
            step.2 ++ [Effect.factoryInvoked])

/-- `ModelManager.get_model` (lines 274-279): read-only lookup that
refreshes the access timestamp on a hit. -/
def ModelManager.get_model (mm : ModelManager) (name : String) (now : ℚ) :
    Option Handle × ModelManager :=
  match dictLookup mm.loaded_models name with
  | some model =>
      (some model,
        { mm with model_access_time :=
            dictSet mm.model_access_time name now })
  | none => (none, mm)

/-- `ModelManager.cleanup_all_models` (lines 281-287): unload every
currently loaded name. -/
def ModelManager.cleanup_all_models (mm : ModelManager) (cuda : Bool) :
    ModelManager × List Effect :=
  mm.unloadNames (dictKeys mm.loaded_models) cuda

/-- The key-set invariant of `ModelManager`: a name is in
`loaded_models` exactly when it is in `model_access_time`. -/
def ModelManager.sameKeys (mm : ModelManager) : Prop :=
  ∀ k, (dictLookup mm.loaded_models k).isSome ↔
    (dictLookup mm.model_access_time k).isSome

/-- The module-level singleton
`global_memory_manager = MemoryManager(max_memory_gb=10.0)` (line 291);
`now` is the construction time. -/
def global_memory_manager (now : ℚ) : MemoryManager :=
  MemoryManager.mkNew now 10

/-- The module-level singleton `global_model_manager = ModelManager()`
(line 292). -/
def global_model_manager (now : ℚ) : ModelManager :=
  ModelManager.mkNew now

/-- A handle that supports both `cpu` and `eval`, used in concrete
examples. -/
def exampleHandle : Handle :=
  { id := 1, hasCpu := true, hasEval := true }

/-- A concrete one-entry manager used in examples: the name `"idle"` is
loaded with `exampleHandle`, last accessed at time 0, under the default
(8 GiB) memory manager. -/
def exampleManager : ModelManager :=
  { loaded_models := [("idle", exampleHandle)]
    model_access_time := [("idle", 0)]
    max_idle_time := 300
    memory_manager := MemoryManager.mkNew 0 }

/-!
Interleaved execution of two `load_model` calls.  `ModelManager` holds no
lock, so the Python interpreter may switch threads between the cache-hit
check of `load_model` (line 220) and the factory call (line 231); the
factory call is the slow, blocking part and is where a switch is
expected.  Each thread therefore runs in two atomic phases:

* phase 0 — the body up to and including the hit check and the memory
  pressure block (lines 217-227): on a hit the thread stores the cached
  handle and finishes; on a miss it advances to phase 1;
* phase 1 — the factory call and the two table insertions
  (lines 231-234): the thread counts one factory invocation, inserts its
  own freshly produced handle and finishes with it.
-/

/-- Program counter plus per-thread result of one `load_model` call. -/
structure LoadThread where
  /-- 0 before the hit check, 1 after a miss, 2 when finished. -/
  pc : Nat
  /-- The handle returned by this call, once finished. -/
  res : Option Handle
  deriving DecidableEq

/-- Shared state of two threads calling `load_model` concurrently. -/
structure TwoLoadSys where
  mm : ModelManager
  t1 : LoadThread
  t2 : LoadThread
  /-- Total number of factory invocations performed so far. -/
  factoryCalls : Nat
  deriving DecidableEq

/-- One atomic phase of `load_model name` executed by one thread, whose
factory would produce `fh`.  `rss`, `cuda` and the clock reads are as in
`ModelManager.load_model`. -/
def loadPhase (name : String) (fh : Handle) (rss : Nat) (cuda : Bool)
    (tNow tGc tEvict : ℚ) (mm : ModelManager) (t : LoadThread)
    (calls : Nat) : ModelManager × LoadThread × Nat :=
  if t.pc = 0 then
    match dictLookup mm.loaded_models name with
    | some model =>
        ({ mm with model_access_time :=
             dictSet mm.model_access_time name tNow },
          { pc := 2, res := some model }, calls)
    | none =>
        ((mm.pressureStep rss cuda tGc tEvict).1, { t with pc := 1 }, calls)
  else if t.pc = 1 then
    ({ mm with
        loaded_models := dictSet mm.loaded_models name fh
        model_access_time := dictSet mm.model_access_time name tNow },
      { pc := 2, res := some fh }, calls + 1)
  else (mm, t, calls)

/-- Run a schedule (`true` = thread 1 takes the next phase, `false` =
thread 2) of two concurrent `load_model name` calls whose factories would
produce `fh1` and `fh2`. -/
def runTwoLoads (name : String) (fh1 fh2 : Handle) (rss : Nat)
    (cuda : Bool) (tNow tGc tEvict : ℚ) (s : TwoLoadSys)
    (sched : List Bool) : TwoLoadSys :=
  match sched with
  | [] => s
  | who :: rest =>
      let s' :=
        if who then
          let r := loadPhase name fh1 rss cuda tNow tGc tEvict s.mm s.t1
            s.factoryCalls
          { mm := r.1, t1 := r.2.1, t2 := s.t2, factoryCalls := r.2.2 }
        else
          let r := loadPhase name fh2 rss cuda tNow tGc tEvict s.mm s.t2
            s.factoryCalls
          { mm := r.1, t1 := s.t1, t2 := r.2.1, factoryCalls := r.2.2 }
      runTwoLoads name fh1 fh2 rss cuda tNow tGc tEvict s' rest

/-! ### Dictionary lemmas -/

theorem dictLookup_dictSet_self {α : Type} (d : List (String × α))
    (k : String) (v : α) : dictLookup (dictSet d k v) k = some v := by
  induction d with
  | nil => simp [dictSet, dictLookup]
  | cons p rest ih =>
      obtain ⟨a, b⟩ := p
      by_cases h : a = k
      · subst h; simp [dictSet, dictLookup]
      · simp [dictSet, dictLookup, h, ih]

theorem dictLookup_dictSet_ne {α : Type} (d : List (String × α))
    (k k' : String) (v : α) (h : k' ≠ k) :
    dictLookup (dictSet d k v) k' = dictLookup d k' := by
  induction d with
  | nil => simp [dictSet, dictLookup, Ne.symm h]
  | cons p rest ih =>
      obtain ⟨a, b⟩ := p
      by_cases ha : a = k
      · subst ha; simp [dictSet, dictLookup, Ne.symm h]
      · simp [dictSet, dictLookup, ha, ih]

theorem dictLookup_dictErase_self {α : Type} (d : List (String × α))
    (k : String) : dictLookup (dictErase d k) k = none := by
  induction d with
  | nil => rfl
  | cons p rest ih =>
      obtain ⟨a, b⟩ := p
      by_cases ha : a = k
      · simp [dictErase, ha, ih]
      · simp [dictErase, dictLookup, ha, ih]

theorem dictLookup_dictErase_ne {α : Type} (d : List (String × α))
    (k k' : String) (h : k' ≠ k) :
    dictLookup (dictErase d k) k' = dictLookup d k' := by
  induction d with
  | nil => rfl
  | cons p rest ih =>
      obtain ⟨a, b⟩ := p
      by_cases ha : a = k
      · subst ha; simp [dictErase, dictLookup, Ne.symm h, ih]
      · simp [dictErase, dictLookup, ha, ih]

theorem dictLookup_none_iff {α : Type} (d : List (String × α))
    (k : String) : dictLookup d k = none ↔ ∀ p ∈ d, p.1 ≠ k := by
  induction d with
  | nil => simp [dictLookup]
  | cons p rest ih =>
      obtain ⟨a, b⟩ := p
      by_cases ha : a = k
      · subst ha; simp [dictLookup]
      · simp [dictLookup, ha, ih]

theorem eq_nil_of_lookup_none {α : Type} (d : List (String × α))
    (h : ∀ k, dictLookup d k = none) : d = [] := by
  cases d with
  | nil => rfl
  | cons p rest =>
      have := h p.1
      simp [dictLookup] at this


theorem dictErase_eq_filter {α : Type} (d : List (String × α))
    (k : String) :
    dictErase d k = d.filter (fun p => decide (p.1 ≠ k)) := by
  induction d with
  | nil => rfl
  | cons q rest ih =>
      obtain ⟨a, b⟩ := q
      by_cases ha : a = k
      · simp [dictErase, ha, ih, List.filter_cons]
      · simp [dictErase, ha, ih, List.filter_cons]

theorem mem_dictErase {α : Type} (d : List (String × α)) (k : String)
    (p : String × α) : p ∈ dictErase d k ↔ p ∈ d ∧ p.1 ≠ k := by
  rw [dictErase_eq_filter, List.mem_filter]
  simp

/-! ### `unload_model` lemmas -/

theorem unload_model_of_absent (mm : ModelManager) (n : String)
    (cuda : Bool) (h : dictLookup mm.loaded_models n = none) :
    mm.unload_model n cuda = (mm, []) := by
  simp [ModelManager.unload_model, h]

theorem unload_model_lookup_self (mm : ModelManager) (n : String)
    (cuda : Bool) :
    dictLookup (mm.unload_model n cuda).1.loaded_models n = none := by
  cases h : dictLookup mm.loaded_models n with
  | none => simp [ModelManager.unload_model, h]
  | some model =>
      simp [ModelManager.unload_model, h, dictLookup_dictErase_self]

theorem unload_model_lookup_ne (mm : ModelManager) (n j : String)
    (cuda : Bool) (hj : j ≠ n) :
    dictLookup (mm.unload_model n cuda).1.loaded_models j =
      dictLookup mm.loaded_models j := by
  cases h : dictLookup mm.loaded_models n with
  | none => simp [ModelManager.unload_model, h]
  | some model =>
      simp [ModelManager.unload_model, h, dictLookup_dictErase_ne _ _ _ hj]

theorem unload_model_access_ne (mm : ModelManager) (n j : String)
    (cuda : Bool) (hj : j ≠ n) :
    dictLookup (mm.unload_model n cuda).1.model_access_time j =
      dictLookup mm.model_access_time j := by
  cases h : dictLookup mm.loaded_models n with
  | none => simp [ModelManager.unload_model, h]
  | some model =>
      by_cases ha : (dictLookup mm.model_access_time n).isSome
      · simp [ModelManager.unload_model, h, ha,
          dictLookup_dictErase_ne _ _ _ hj]
      · simp [ModelManager.unload_model, h, ha]

theorem unload_model_access_none (mm : ModelManager) (n j : String)
    (cuda : Bool) (h : dictLookup mm.model_access_time j = none) :
    dictLookup (mm.unload_model n cuda).1.model_access_time j = none := by
  by_cases hj : j = n
  · subst hj
    cases hl : dictLookup mm.loaded_models j with
    | none => simp [ModelManager.unload_model, hl, h]
    | some model => simp [ModelManager.unload_model, hl, h]
  · rw [unload_model_access_ne mm n j cuda hj]
    exact h

theorem unload_model_fields (mm : ModelManager) (n : String) (cuda : Bool) :
    (mm.unload_model n cuda).1.max_idle_time = mm.max_idle_time ∧
    (mm.unload_model n cuda).1.memory_manager = mm.memory_manager := by
  cases h : dictLookup mm.loaded_models n with
  | none => simp [ModelManager.unload_model, h]
  | some model => simp [ModelManager.unload_model, h]

theorem unload_model_cpu_ne (mm : ModelManager) (n j : String) (i : Nat)
    (cuda : Bool) (hj : j ≠ n) :
    Effect.cpuCalled j i ∉ (mm.unload_model n cuda).2 := by
  cases h : dictLookup mm.loaded_models n with
  | none => simp [ModelManager.unload_model, h]
  | some model =>
      intro hmem
      simp only [ModelManager.unload_model, h] at hmem
      rcases List.mem_append.mp hmem with hm | hm
      · by_cases hc : model.hasCpu
        · simp [hc] at hm
          exact hj hm.1
        · simp [hc] at hm
      · cases cuda <;> simp at hm

theorem unload_model_cpu_count (mm : ModelManager) (n : String)
    (cuda : Bool) (model : Handle)
    (h : dictLookup mm.loaded_models n = some model)
    (hc : model.hasCpu = true) :
    List.count (Effect.cpuCalled n model.id) (mm.unload_model n cuda).2
      = 1 := by
  simp only [ModelManager.unload_model, h, hc]
  cases cuda <;> simp [List.count_cons, List.count_append]

/-! ### `unloadNames` lemmas -/

theorem unloadNames_absent (names : List String) (mm : ModelManager)
    (j : String) (cuda : Bool)
    (h : dictLookup mm.loaded_models j = none) :
    dictLookup (mm.unloadNames names cuda).1.loaded_models j = none ∧
    ∀ i, Effect.cpuCalled j i ∉ (mm.unloadNames names cuda).2 := by
  induction names generalizing mm with
  | nil => simpa [ModelManager.unloadNames] using h
  | cons n rest ih =>
      by_cases hj : j = n
      · subst hj
        have hno := unload_model_of_absent mm j cuda h
        simp only [ModelManager.unloadNames, hno]
        simpa using ih mm h
      · have hpres : dictLookup (mm.unload_model n cuda).1.loaded_models j
            = none := by
          rw [unload_model_lookup_ne mm n j cuda hj]; exact h
        have hrest := ih (mm.unload_model n cuda).1 hpres
        simp only [ModelManager.unloadNames]
        refine ⟨hrest.1, fun i hmem => ?_⟩
        rcases List.mem_append.mp hmem with hm | hm
        · exact unload_model_cpu_ne mm n j i cuda hj hm
        · exact hrest.2 i hm

theorem unloadNames_evict (names : List String) (mm : ModelManager)
    (j : String) (model : Handle) (cuda : Bool)
    (hl : dictLookup mm.loaded_models j = some model)
    (hmem : j ∈ names) (hc : model.hasCpu = true) :
    dictLookup (mm.unloadNames names cuda).1.loaded_models j = none ∧
    List.count (Effect.cpuCalled j model.id)
      (mm.unloadNames names cuda).2 = 1 := by
  induction names generalizing mm with
  | nil => cases hmem
  | cons n rest ih =>
      by_cases hj : j = n
      · subst hj
        have h1 := unload_model_lookup_self mm j cuda
        have habs := unloadNames_absent rest (mm.unload_model j cuda).1
          j cuda h1
        simp only [ModelManager.unloadNames]
        refine ⟨habs.1, ?_⟩
        rw [List.count_append]
        rw [unload_model_cpu_count mm j cuda model hl hc]
        rw [List.count_eq_zero.mpr (habs.2 model.id)]
      · have hpres : dictLookup (mm.unload_model n cuda).1.loaded_models j
            = some model := by
          rw [unload_model_lookup_ne mm n j cuda hj]; exact hl
        have hmem' : j ∈ rest := by
          rcases List.mem_cons.mp hmem with he | hr
          · exact absurd he hj
          · exact hr
        have hrest := ih (mm.unload_model n cuda).1 hpres hmem'
        simp only [ModelManager.unloadNames]
        refine ⟨hrest.1, ?_⟩
        rw [List.count_append]
        rw [List.count_eq_zero.mpr (unload_model_cpu_ne mm n j model.id
          cuda hj)]
        rw [hrest.2]

theorem unloadNames_access_none (names : List String) (mm : ModelManager)
    (j : String) (cuda : Bool)
    (h : dictLookup mm.model_access_time j = none) :
    dictLookup (mm.unloadNames names cuda).1.model_access_time j
      = none := by
  induction names generalizing mm with
  | nil => simpa [ModelManager.unloadNames] using h
  | cons n rest ih =>
      simp only [ModelManager.unloadNames]
      exact ih (mm.unload_model n cuda).1
        (unload_model_access_none mm n j cuda h)

theorem unloadNames_fields (names : List String) (mm : ModelManager)
    (cuda : Bool) :
    (mm.unloadNames names cuda).1.max_idle_time = mm.max_idle_time ∧
    (mm.unloadNames names cuda).1.memory_manager = mm.memory_manager := by
  induction names generalizing mm with
  | nil => simp [ModelManager.unloadNames]
  | cons n rest ih =>
      simp only [ModelManager.unloadNames]
      have h1 := unload_model_fields mm n cuda
      have h2 := ih (mm.unload_model n cuda).1
      exact ⟨h2.1.trans h1.1, h2.2.trans h1.2⟩

theorem unload_model_sameKeys (mm : ModelManager) (n : String)
    (cuda : Bool) (hinv : mm.sameKeys) :
    (mm.unload_model n cuda).1.sameKeys := by
  intro k
  by_cases hk : k = n
  · subst hk
    cases hl : dictLookup mm.loaded_models k with
    | none =>
        rw [unload_model_of_absent mm k cuda hl]
        exact hinv k
    | some model =>
        have h1 := unload_model_lookup_self mm k cuda
        have h2 : dictLookup (mm.unload_model k cuda).1.model_access_time k
            = none := by
          by_cases ha : (dictLookup mm.model_access_time k).isSome
          · simp [ModelManager.unload_model, hl, ha,
              dictLookup_dictErase_self]
          · simp only [ModelManager.unload_model, hl, ha, if_neg]
            simpa using Option.not_isSome_iff_eq_none.mp ha
        simp [h1, h2]
  · rw [unload_model_lookup_ne mm n k cuda hk,
      unload_model_access_ne mm n k cuda hk]
    exact hinv k

theorem unloadNames_sameKeys (names : List String) (mm : ModelManager)
    (cuda : Bool) (hinv : mm.sameKeys) :
    (mm.unloadNames names cuda).1.sameKeys := by
  induction names generalizing mm with
  | nil => simpa [ModelManager.unloadNames] using hinv
  | cons n rest ih =>
      simp only [ModelManager.unloadNames]
      exact ih (mm.unload_model n cuda).1
        (unload_model_sameKeys mm n cuda hinv)

theorem unloadNames_clears (names : List String) (mm : ModelManager)
    (cuda : Bool) (h : ∀ p ∈ mm.loaded_models, p.1 ∈ names) :
    (mm.unloadNames names cuda).1.loaded_models = [] := by
  induction names generalizing mm with
  | nil =>
      have hnil : mm.loaded_models = [] := by
        cases hd : mm.loaded_models with
        | nil => rfl
        | cons p rest =>
            have := h p (by rw [hd]; exact List.mem_cons_self p rest)
            simp at this
      simp [ModelManager.unloadNames, hnil]
  | cons n rest ih =>
      simp only [ModelManager.unloadNames]
      apply ih
      intro p hp
      cases hl : dictLookup mm.loaded_models n with
      | none =>
          rw [unload_model_of_absent mm n cuda hl] at hp
          have hmem := h p hp
          have hne : p.1 ≠ n := (dictLookup_none_iff _ _).mp hl p hp
          rcases List.mem_cons.mp hmem with he | hr
          · exact absurd he hne
          · exact hr
      | some model =>
          have hp' : p ∈ dictErase mm.loaded_models n := by
            simpa [ModelManager.unload_model, hl] using hp
          rw [mem_dictErase] at hp'
          have hmem := h p hp'.1
          rcases List.mem_cons.mp hmem with he | hr
          · exact absurd he hp'.2
          · exact hr

theorem mem_of_dictLookup {α : Type} (d : List (String × α)) (k : String)
    (v : α) (h : dictLookup d k = some v) : (k, v) ∈ d := by
  induction d with
  | nil => simp [dictLookup] at h
  | cons p rest ih =>
      obtain ⟨a, b⟩ := p
      by_cases ha : a = k
      · subst ha
        simp [dictLookup] at h
        subst h
        exact List.mem_cons_self _ _
      · simp [dictLookup, ha] at h
        exact List.mem_cons_of_mem _ (ih h)

theorem unload_model_no_factory (mm : ModelManager) (n : String)
    (cuda : Bool) :
    Effect.factoryInvoked ∉ (mm.unload_model n cuda).2 := by
  cases h : dictLookup mm.loaded_models n with
  | none => simp [ModelManager.unload_model, h]
  | some model =>
      intro hmem
      simp only [ModelManager.unload_model, h] at hmem
      rcases List.mem_append.mp hmem with hm | hm
      · by_cases hc : model.hasCpu <;> simp [hc] at hm
      · cases cuda <;> simp at hm

theorem unloadNames_no_factory (names : List String) (mm : ModelManager)
    (cuda : Bool) :
    Effect.factoryInvoked ∉ (mm.unloadNames names cuda).2 := by
  induction names generalizing mm with
  | nil => simp [ModelManager.unloadNames]
  | cons n rest ih =>
      simp only [ModelManager.unloadNames]
      intro hmem
      rcases List.mem_append.mp hmem with hm | hm
      · exact unload_model_no_factory mm n cuda hm
      · exact ih (mm.unload_model n cuda).1 hm

/-! ### `pressureStep` lemmas -/

theorem pressureStep_of_no_warning (mm : ModelManager) (rss : Nat)
    (cuda : Bool) (tGc tEvict : ℚ)
    (h : mm.memory_manager.is_memory_warning rss = false) :
    mm.pressureStep rss cuda tGc tEvict = (mm, []) := by
  simp [ModelManager.pressureStep, h]

theorem pressureStep_absent (mm : ModelManager) (rss : Nat) (cuda : Bool)
    (tGc tEvict : ℚ) (j : String)
    (h : dictLookup mm.loaded_models j = none) :
    dictLookup (mm.pressureStep rss cuda tGc tEvict).1.loaded_models j
      = none := by
  by_cases hw : mm.memory_manager.is_memory_warning rss
  · simp only [ModelManager.pressureStep, ModelManager.unload_idle_models,
      hw, if_pos]
    refine (unloadNames_absent _ _ j cuda ?_).1
    exact h
  · simp [ModelManager.pressureStep, hw, h]

theorem pressureStep_access_none (mm : ModelManager) (rss : Nat)
    (cuda : Bool) (tGc tEvict : ℚ) (j : String)
    (h : dictLookup mm.model_access_time j = none) :
    dictLookup (mm.pressureStep rss cuda tGc tEvict).1.model_access_time j
      = none := by
  by_cases hw : mm.memory_manager.is_memory_warning rss
  · simp only [ModelManager.pressureStep, ModelManager.unload_idle_models,
      hw, if_pos]
    refine unloadNames_access_none _ _ j cuda ?_
    exact h
  · simp [ModelManager.pressureStep, hw, h]

theorem pressureStep_no_factory (mm : ModelManager) (rss : Nat)
    (cuda : Bool) (tGc tEvict : ℚ) :
    Effect.factoryInvoked ∉ (mm.pressureStep rss cuda tGc tEvict).2 := by
  by_cases hw : mm.memory_manager.is_memory_warning rss
  · simp only [ModelManager.pressureStep, ModelManager.unload_idle_models,
      hw, if_pos]
    intro hmem
    rcases List.mem_append.mp hmem with hm | hm
    · cases cuda <;> simp [MemoryManager.force_garbage_collection] at hm
    · exact unloadNames_no_factory _ _ cuda hm
  · simp [ModelManager.pressureStep, hw]

theorem pressureStep_sameKeys (mm : ModelManager) (rss : Nat)
    (cuda : Bool) (tGc tEvict : ℚ) (hinv : mm.sameKeys) :
    (mm.pressureStep rss cuda tGc tEvict).1.sameKeys := by
  by_cases hw : mm.memory_manager.is_memory_warning rss
  · simp only [ModelManager.pressureStep, ModelManager.unload_idle_models,
      hw, if_pos]
    refine unloadNames_sameKeys _ _ cuda ?_
    exact hinv
  · simpa [ModelManager.pressureStep, hw] using hinv

/-! ### Claim theorems -/

/-- C1: when logical name `name` already has a live entry holding handle
`h`, `load_model` returns exactly that stored handle, leaves
`loaded_models`, the inner memory manager and the idle timeout untouched,
changes the access-timestamp table only at `name` (setting it to the
current time), and performs no runtime effect at all — in particular the
factory is never invoked (the trace holds no `factoryInvoked`). -/
theorem load_model_cache_hit {ε : Type} (mm : ModelManager) (name : String)
    (h : Handle) (factory : Except ε Handle) (rss : Nat) (cuda : Bool)
    (tNow tGc tEvict : ℚ)
    (hh : dictLookup mm.loaded_models name = some h) :
    (mm.load_model name factory rss cuda tNow tGc tEvict).1
      = Except.ok h ∧
    (mm.load_model name factory rss cuda tNow tGc tEvict).2.1.loaded_models
      = mm.loaded_models ∧
    (mm.load_model name factory rss cuda tNow tGc tEvict).2.1.memory_manager
      = mm.memory_manager ∧
    (mm.load_model name factory rss cuda tNow tGc tEvict).2.1.max_idle_time
      = mm.max_idle_time ∧
    dictLookup
      (mm.load_model name factory rss cuda tNow tGc tEvict
        ).2.1.model_access_time name = some tNow ∧
    (∀ k, k ≠ name →
      dictLookup
        (mm.load_model name factory rss cuda tNow tGc tEvict
          ).2.1.model_access_time k
        = dictLookup mm.model_access_time k) ∧
    (mm.load_model name factory rss cuda tNow tGc tEvict).2.2 = [] := by
  refine ⟨?_, ?_, ?_, ?_, ?_, fun k hk => ?_, ?_⟩ <;>
    simp [ModelManager.load_model, hh, dictLookup_dictSet_self]
  exact dictLookup_dictSet_ne _ _ _ _ hk

/-- C1 witness: a one-entry cache; a failing factory is passed to show it
is irrelevant on a hit. -/
theorem load_model_cache_hit_witness :
    (({ loaded_models := [("m", ⟨1, true, true⟩)]
        model_access_time := [("m", 0)]
        max_idle_time := 300
        memory_manager := MemoryManager.mkNew 0 } : ModelManager
      ).load_model "m" (Except.error "boom") 0 false 5 5 5).1
      = Except.ok ⟨1, true, true⟩ :=
  (load_model_cache_hit _ "m" ⟨1, true, true⟩ (Except.error "boom")
    0 false 5 5 5 (by decide)).1

/-- C4 counterexample: `force_garbage_collection` has no `return`
statement, so even with nothing to collect (`gc.collect()` reported 0)
its return value is `None`, not the count 0 the claim requires. -/
theorem force_gc_return_counterexample :
    ((MemoryManager.mkNew 0).force_garbage_collection 0 false 5).1
      ≠ some 0 := by
  simp [MemoryManager.force_garbage_collection]

/-- C4 amended: `force_garbage_collection` records (logs) exactly the
count of objects the runtime collector reclaimed, but its Python return
value is always `None`; in particular it does not return 0 when there is
nothing to collect. -/
theorem force_gc_logs_count_returns_none (m : MemoryManager)
    (gcResult : Nat) (cuda : Bool) (now : ℚ) :
    (m.force_garbage_collection gcResult cuda now).1 = none ∧
    (m.force_garbage_collection gcResult cuda now).2.1 = gcResult :=
  ⟨rfl, rfl⟩

/-- C6: when the wrapped work raises exception `e`, the `memory_monitor`
guard performs exactly one `gc.collect()` in response (in its exception
handler, after the work raised) and propagates exactly `e` — the same
error value, never transformed and never swallowed. -/
theorem memory_monitor_reraises {α ε : Type} (max_memory_gb : ℚ)
    (cuda : Bool) (preRss postRss : Nat) (e : ε) :
    (memory_monitor_run (α := α) max_memory_gb cuda preRss
        (Except.error e) postRss).1 = Except.error e ∧
    List.count Effect.gcCollect
      (memory_monitor_run (α := α) max_memory_gb cuda preRss
        (Except.error e) postRss).2.2 = 1 := by
  cases cuda <;> simp [memory_monitor_run]

/-- C7: unloading an absent name is a no-op that raises nothing (the
operation is total and returns the state unchanged with an empty effect
trace), and a second `unload_model` of the same name right after a first
one is such a no-op — the release hook is not invoked a second time. -/
theorem unload_model_idempotent (mm : ModelManager) (n : String)
    (cuda cuda' : Bool) :
    (dictLookup mm.loaded_models n = none →
      mm.unload_model n cuda = (mm, [])) ∧
    (mm.unload_model n cuda).1.unload_model n cuda'
      = ((mm.unload_model n cuda).1, []) := by
  refine ⟨unload_model_of_absent mm n cuda, ?_⟩
  exact unload_model_of_absent _ n cuda'
    (unload_model_lookup_self mm n cuda)

/-- C7 witness: double unload on a one-entry manager. -/
theorem unload_model_idempotent_witness :
    (ModelManager.mkNew 0).unload_model "m" false
      = (ModelManager.mkNew 0, []) :=
  (unload_model_idempotent (ModelManager.mkNew 0) "m" false false).1
    (by decide)

/-- C8 counterexample: the zero-argument `MemoryManager()` constructor
uses `max_memory_gb=8.0`, so the default budget is 8 GiB, not the 10 GiB
the claim states (10 GiB is only the explicit override used for the
module-level `global_memory_manager`). -/
theorem default_budget_counterexample :
    (MemoryManager.mkNew 0).max_memory_bytes
      ≠ 10 * 1024 * 1024 * 1024 := by
  norm_num [MemoryManager.mkNew]

/-- C8 amended: components constructed with no explicit configuration use
an 8 GiB memory budget (the module-level `global_memory_manager`
singleton alone overrides it to 10 GiB), a 5-unit poll interval, a
30-unit collection interval and a 300-unit idle timeout, and the
warning/critical thresholds are the hardcoded fractions 0.7 and 0.9 of
the budget (for the 8 GiB default the warning cutoff sits between bytes
6012954214 and 6012954215, the critical cutoff between 7730941132 and
7730941133). -/
theorem default_configuration (now : ℚ) :
    (MemoryManager.mkNew now).max_memory_bytes
      = 8 * 1024 * 1024 * 1024 ∧
    (MemoryManager.mkNew now).check_interval = 5 ∧
    (MemoryManager.mkNew now).gc_interval = 30 ∧
    (ModelManager.mkNew now).max_idle_time = 300 ∧
    (ModelManager.mkNew now).memory_manager.max_memory_bytes
      = 8 * 1024 * 1024 * 1024 ∧
    (global_memory_manager now).max_memory_bytes
      = 10 * 1024 * 1024 * 1024 ∧
    (MemoryManager.mkNew now).is_memory_warning 6012954214 = false ∧
    (MemoryManager.mkNew now).is_memory_warning 6012954215 = true ∧
    (MemoryManager.mkNew now).is_memory_critical 7730941132 = false ∧
    (MemoryManager.mkNew now).is_memory_critical 7730941133 = true := by
  refine ⟨by norm_num [MemoryManager.mkNew], rfl, rfl, rfl,
    by norm_num [ModelManager.mkNew, MemoryManager.mkNew],
    by norm_num [global_memory_manager, MemoryManager.mkNew], ?_, ?_, ?_, ?_⟩
    <;> simp [MemoryManager.mkNew, MemoryManager.is_memory_warning,
      MemoryManager.is_memory_critical] <;> norm_num

/-- C2 counterexample: two ticks of the monitor loop over the 10 GiB
global configuration.  First, with the collection interval not yet
elapsed (`now = last_gc_time`), a snapshot far above the critical cutoff
invokes no callback at all.  Second, with the interval elapsed, a
snapshot whose resident bytes equal the critical cutoff exactly
(10 GiB × 0.9 = 9663676416 bytes) — hence `≥` the cutoff as the claim
requires — invokes only `memory_warning`, because the code compares with
strict `>`. -/
theorem monitor_tick_counterexample :
    ((MemoryManager.mkNew 0 10).max_memory_bytes * (9 / 10)
        ≤ ((10 : ℚ) ^ 12) ∧
      (MemoryManager.mkNew 0 10).monitorTickEvents (10 ^ 12) 0 = []) ∧
    ((MemoryManager.mkNew 0 10).max_memory_bytes * (9 / 10)
        ≤ ((9663676416 : ℚ)) ∧
      (MemoryManager.mkNew 0 10).monitorTickEvents 9663676416 31
        = ["memory_warning"]) := by
  refine ⟨⟨by norm_num [MemoryManager.mkNew], ?_⟩,
    ⟨by norm_num [MemoryManager.mkNew], ?_⟩⟩ <;>
    norm_num [MemoryManager.mkNew, MemoryManager.monitorTickEvents,
      MemoryManager.is_memory_warning, MemoryManager.is_memory_critical]

/-- C2 amended: callbacks are dispatched in a tick only when the elapsed
time since the last collection exceeds the collection interval.  In such
a tick (for a non-negative budget): resident bytes strictly above the
critical cutoff invoke `memory_warning` then `memory_critical`; resident
bytes strictly above the warning cutoff but at most the critical cutoff
invoke only `memory_warning`; resident bytes at most the warning cutoff
invoke neither.  In a tick where the interval has not elapsed, nothing is
invoked regardless of the snapshot. -/
theorem monitor_tick_thresholds (m : MemoryManager) (rss : Nat) (now : ℚ)
    (hb : 0 ≤ m.max_memory_bytes) :
    (¬ m.gc_interval < now - m.last_gc_time →
      m.monitorTickEvents rss now = []) ∧
    (m.gc_interval < now - m.last_gc_time →
      (m.max_memory_bytes * (9 / 10) < (rss : ℚ) →
        m.monitorTickEvents rss now
          = ["memory_warning", "memory_critical"]) ∧
      (m.max_memory_bytes * (7 / 10) < (rss : ℚ) ∧
          (rss : ℚ) ≤ m.max_memory_bytes * (9 / 10) →
        m.monitorTickEvents rss now = ["memory_warning"]) ∧
      ((rss : ℚ) ≤ m.max_memory_bytes * (7 / 10) →
        m.monitorTickEvents rss now = [])) := by
  constructor
  · intro hg
    simp [MemoryManager.monitorTickEvents, hg]
  · intro hg
    refine ⟨?_, ?_, ?_⟩
    · intro hcrit
      have hwarn : m.max_memory_bytes * (7 / 10) < (rss : ℚ) := by
        nlinarith
      simp [MemoryManager.monitorTickEvents, hg,
        MemoryManager.is_memory_warning, MemoryManager.is_memory_critical,
        hwarn, hcrit]
    · rintro ⟨hwarn, hcrit⟩
      have hc : ¬ m.max_memory_bytes * (9 / 10) < (rss : ℚ) :=
        not_lt.mpr hcrit
      simp [MemoryManager.monitorTickEvents, hg,
        MemoryManager.is_memory_warning, MemoryManager.is_memory_critical,
        hwarn, hc]
    · intro hlow
      have h1 : ¬ m.max_memory_bytes * (7 / 10) < (rss : ℚ) :=
        not_lt.mpr hlow
      have h2 : ¬ m.max_memory_bytes * (9 / 10) < (rss : ℚ) := by
        push_neg
        nlinarith
      simp [MemoryManager.monitorTickEvents, hg,
        MemoryManager.is_memory_warning, MemoryManager.is_memory_critical,
        h1, h2]

/-- C2 witness: an 8 GiB snapshot against the 10 GiB configuration with
the collection interval elapsed sits strictly between the cutoffs, so the
tick invokes exactly `memory_warning`. -/
theorem monitor_tick_thresholds_witness :
    (MemoryManager.mkNew 0 10).monitorTickEvents 8589934592 31
      = ["memory_warning"] :=
  ((monitor_tick_thresholds (MemoryManager.mkNew 0 10) 8589934592 31
      (by norm_num [MemoryManager.mkNew])).2
    (by norm_num [MemoryManager.mkNew])).2.1
    (by norm_num [MemoryManager.mkNew])


/-- Shared helper: under warning-level memory the pressure block of
`load_model` evicts an entry whose last access is more than
`max_idle_time` before the eviction-time read, and its handle's `cpu`
release hook is invoked exactly once. -/
theorem pressureStep_evicts_idle (mm : ModelManager) (rss : Nat)
    (cuda : Bool) (tGc tEvict : ℚ) (idleName : String) (h : Handle)
    (tA : ℚ)
    (hl : dictLookup mm.loaded_models idleName = some h)
    (ha : dictLookup mm.model_access_time idleName = some tA)
    (hidle : mm.max_idle_time < tEvict - tA)
    (hwarn : mm.memory_manager.is_memory_warning rss = true)
    (hcpu : h.hasCpu = true) :
    dictLookup (mm.pressureStep rss cuda tGc tEvict).1.loaded_models
      idleName = none ∧
    List.count (Effect.cpuCalled idleName h.id)
      (mm.pressureStep rss cuda tGc tEvict).2 = 1 := by
  simp only [ModelManager.pressureStep, ModelManager.unload_idle_models,
    hwarn, if_pos]
  have hmem : idleName ∈ dictKeys (List.filter
      (fun p => decide (mm.max_idle_time < tEvict - p.2))
      mm.model_access_time) := by
    have hpair : (idleName, tA) ∈ mm.model_access_time :=
      mem_of_dictLookup _ _ _ ha
    have hfil : (idleName, tA) ∈ List.filter
        (fun p => decide (mm.max_idle_time < tEvict - p.2))
        mm.model_access_time := by
      rw [List.mem_filter]
      exact ⟨hpair, by simpa using hidle⟩
    exact List.mem_map_of_mem Prod.fst hfil
  have hev := unloadNames_evict
    (dictKeys (List.filter
      (fun p => decide (mm.max_idle_time < tEvict - p.2))
      mm.model_access_time))
    { mm with memory_manager :=
        (mm.memory_manager.force_garbage_collection 0 cuda tGc).2.2.2 }
    idleName h cuda hl hmem hcpu
  refine ⟨hev.1, ?_⟩
  rw [List.count_append]
  rw [hev.2]
  cases cuda <;> simp [MemoryManager.force_garbage_collection]

/-- C3 counterexample: the claim demands that a failing load leave both
tables exactly as they were.  But when the load proceeds under
warning-level memory (8 GiB resident against the default 8 GiB budget),
the pressure block of `load_model` runs *before* the factory, evicting
the idle entry `"idle"` of `exampleManager` (last access 0, now 1000,
timeout 300) — the error is propagated, yet the cache mapping has
changed. -/
theorem load_model_factory_error_counterexample :
    (exampleManager.load_model "new" (Except.error "boom") 8589934592
        false 1000 1000 1000).1 = Except.error "boom" ∧
    (exampleManager.load_model "new" (Except.error "boom") 8589934592
        false 1000 1000 1000).2.1.loaded_models
      ≠ exampleManager.loaded_models := by
  constructor
  · rfl
  · have hw : exampleManager.memory_manager.is_memory_warning 8589934592
        = true := by
      norm_num [exampleManager, MemoryManager.mkNew,
        MemoryManager.is_memory_warning]
    have hp := pressureStep_evicts_idle exampleManager 8589934592 false
      1000 1000 "idle" exampleHandle 0 (by decide) (by rfl)
      (by norm_num [exampleManager]) hw rfl
    have hnew : dictLookup exampleManager.loaded_models "new" = none := by
      decide
    have hres : (exampleManager.load_model "new" (Except.error "boom")
        8589934592 false 1000 1000 1000).2.1
        = (exampleManager.pressureStep 8589934592 false 1000 1000).1 := by
      simp only [ModelManager.load_model, hnew]
    intro heq
    rw [hres] at heq
    have h1 := hp.1
    rw [heq] at h1
    simp [exampleManager, exampleHandle, dictLookup] at h1

/-- C3 amended: for a name `name` not currently cached whose factory
raises `e`, `load_model` propagates `e` unchanged and inserts no entry
for `name` into either table (given `name` had none); and whenever the
call does not run under warning-level memory, both tables are left
exactly as they were.  (Under warning-level memory the pressure block may
first evict idle entries — the only way the tables can change.) -/
theorem load_model_factory_error {ε : Type} (mm : ModelManager)
    (name : String) (e : ε) (rss : Nat) (cuda : Bool)
    (tNow tGc tEvict : ℚ)
    (hl : dictLookup mm.loaded_models name = none)
    (ha : dictLookup mm.model_access_time name = none) :
    (mm.load_model name (Except.error e) rss cuda tNow tGc tEvict).1
      = Except.error e ∧
    dictLookup (mm.load_model name (Except.error e) rss cuda tNow tGc
      tEvict).2.1.loaded_models name = none ∧
    dictLookup (mm.load_model name (Except.error e) rss cuda tNow tGc
      tEvict).2.1.model_access_time name = none ∧
    (mm.memory_manager.is_memory_warning rss = false →
      (mm.load_model name (Except.error e) rss cuda tNow tGc tEvict).2.1
        = mm) := by
  refine ⟨?_, ?_, ?_, fun hw => ?_⟩
  · simp [ModelManager.load_model, hl]
  · simp only [ModelManager.load_model, hl]
    exact pressureStep_absent mm rss cuda tGc tEvict name hl
  · simp only [ModelManager.load_model, hl]
    exact pressureStep_access_none mm rss cuda tGc tEvict name ha
  · simp [ModelManager.load_model, hl,
      pressureStep_of_no_warning mm rss cuda tGc tEvict hw]

/-- C3 witness: a failing load of `"new"` on the one-entry
`exampleManager` with no memory pressure (`rss = 0`) propagates the error
and changes nothing. -/
theorem load_model_factory_error_witness :
    (exampleManager.load_model "new" (Except.error "boom") 0 false
        1000 1000 1000).1 = Except.error "boom" ∧
    dictLookup (exampleManager.load_model "new" (Except.error "boom") 0
        false 1000 1000 1000).2.1.loaded_models "new" = none ∧
    dictLookup (exampleManager.load_model "new" (Except.error "boom") 0
        false 1000 1000 1000).2.1.model_access_time "new" = none ∧
    (exampleManager.memory_manager.is_memory_warning 0 = false →
      (exampleManager.load_model "new" (Except.error "boom") 0 false
          1000 1000 1000).2.1 = exampleManager) :=
  load_model_factory_error exampleManager "new" "boom" 0 false
    1000 1000 1000 (by decide) (by rfl)

/-- C5: if the entry `idleName` was last accessed more than
`max_idle_time` before the eviction-time read, then a `load_model` call
for a different, not-yet-cached name made under warning-level memory
removes `idleName` from the cache and invokes its handle's `cpu` release
hook exactly once. -/
theorem idle_entry_evicted {ε : Type} (mm : ModelManager)
    (idleName newName : String) (h hNew : Handle) (tA : ℚ) (rss : Nat)
    (cuda : Bool) (tNow tGc tEvict : ℚ)
    (hl : dictLookup mm.loaded_models idleName = some h)
    (ha : dictLookup mm.model_access_time idleName = some tA)
    (hidle : mm.max_idle_time < tEvict - tA)
    (hwarn : mm.memory_manager.is_memory_warning rss = true)
    (hdiff : newName ≠ idleName)
    (hnew : dictLookup mm.loaded_models newName = none)
    (hcpu : h.hasCpu = true) :
    dictLookup (mm.load_model newName (Except.ok hNew : Except ε Handle)
      rss cuda tNow tGc tEvict).2.1.loaded_models idleName = none ∧
    List.count (Effect.cpuCalled idleName h.id)
      (mm.load_model newName (Except.ok hNew : Except ε Handle)
        rss cuda tNow tGc tEvict).2.2 = 1 := by
  have hp := pressureStep_evicts_idle mm rss cuda tGc tEvict idleName h
    tA hl ha hidle hwarn hcpu
  simp only [ModelManager.load_model, hnew]
  constructor
  · rw [dictLookup_dictSet_ne _ _ _ _ (Ne.symm hdiff)]
    exact hp.1
  · rw [List.count_append, hp.2]
    simp

/-- C5 witness: on `exampleManager` (entry `"idle"` last accessed at 0,
timeout 300), loading `"new"` at time 1000 under 8 GiB resident memory
evicts `"idle"` and calls its `cpu` hook once. -/
theorem idle_entry_evicted_witness :
    dictLookup (exampleManager.load_model "new"
      (Except.ok ⟨2, false, false⟩ : Except String Handle)
      8589934592 false 1000 1000 1000).2.1.loaded_models "idle"
      = none ∧
    List.count (Effect.cpuCalled "idle" exampleHandle.id)
      (exampleManager.load_model "new"
        (Except.ok ⟨2, false, false⟩ : Except String Handle)
        8589934592 false 1000 1000 1000).2.2 = 1 :=
  idle_entry_evicted exampleManager "idle" "new" exampleHandle
    ⟨2, false, false⟩ 0 8589934592 false 1000 1000 1000
    (by decide) (by rfl) (by norm_num [exampleManager])
    (by norm_num [exampleManager, MemoryManager.mkNew,
      MemoryManager.is_memory_warning])
    (by decide) (by decide) (by rfl)

/-- Helper: `load_model` on a cache hit, as one equation. -/
theorem load_model_hit_eq {ε : Type} (mm : ModelManager) (name : String)
    (h : Handle) (factory : Except ε Handle) (rss : Nat) (cuda : Bool)
    (tNow tGc tEvict : ℚ)
    (hh : dictLookup mm.loaded_models name = some h) :
    mm.load_model name factory rss cuda tNow tGc tEvict
      = (Except.ok h,
         { mm with model_access_time :=
             dictSet mm.model_access_time name tNow }, []) := by
  simp [ModelManager.load_model, hh]

/-- Helper: `load_model` on a cache miss with a succeeding factory, as
one equation. -/
theorem load_model_miss_ok_eq {ε : Type} (mm : ModelManager)
    (name : String) (h : Handle) (rss : Nat) (cuda : Bool)
    (tNow tGc tEvict : ℚ)
    (hl : dictLookup mm.loaded_models name = none) :
    mm.load_model name (Except.ok h : Except ε Handle) rss cuda
        tNow tGc tEvict
      = (Except.ok h,
         { (mm.pressureStep rss cuda tGc tEvict).1 with
             loaded_models := dictSet
               (mm.pressureStep rss cuda tGc tEvict).1.loaded_models
               name h
             model_access_time := dictSet
               (mm.pressureStep rss cuda tGc tEvict).1.model_access_time
               name tNow },
         (mm.pressureStep rss cuda tGc tEvict).2
           ++ [Effect.factoryInvoked]) := by
  simp [ModelManager.load_model, hl]

/-- C9 counterexample: `ModelManager` holds no lock, so with two threads
both calling `load_model "X"` on a fresh manager, the interleaving
"thread 1 hit-check, thread 2 hit-check, thread 1 factory+insert,
thread 2 factory+insert" invokes the factory twice (not once) and the two
calls return different handle instances. -/
theorem concurrent_load_counterexample :
    (runTwoLoads "X" ⟨1, false, false⟩ ⟨2, false, false⟩ 0 false 0 0 0
      { mm := ModelManager.mkNew 0, t1 := ⟨0, none⟩, t2 := ⟨0, none⟩,
        factoryCalls := 0 }
      [true, false, true, false]).factoryCalls = 2 ∧
    (runTwoLoads "X" ⟨1, false, false⟩ ⟨2, false, false⟩ 0 false 0 0 0
      { mm := ModelManager.mkNew 0, t1 := ⟨0, none⟩, t2 := ⟨0, none⟩,
        factoryCalls := 0 }
      [true, false, true, false]).t1.res = some ⟨1, false, false⟩ ∧
    (runTwoLoads "X" ⟨1, false, false⟩ ⟨2, false, false⟩ 0 false 0 0 0
      { mm := ModelManager.mkNew 0, t1 := ⟨0, none⟩, t2 := ⟨0, none⟩,
        factoryCalls := 0 }
      [true, false, true, false]).t2.res = some ⟨2, false, false⟩ ∧
    (runTwoLoads "X" ⟨1, false, false⟩ ⟨2, false, false⟩ 0 false 0 0 0
      { mm := ModelManager.mkNew 0, t1 := ⟨0, none⟩, t2 := ⟨0, none⟩,
        factoryCalls := 0 }
      [true, false, true, false]).t1.res
      ≠ (runTwoLoads "X" ⟨1, false, false⟩ ⟨2, false, false⟩ 0 false 0 0 0
      { mm := ModelManager.mkNew 0, t1 := ⟨0, none⟩, t2 := ⟨0, none⟩,
        factoryCalls := 0 }
      [true, false, true, false]).t2.res := by
  have hw : (ModelManager.mkNew 0).memory_manager.is_memory_warning 0
      = false := by
    norm_num [ModelManager.mkNew, MemoryManager.mkNew,
      MemoryManager.is_memory_warning]
  have hps := pressureStep_of_no_warning (ModelManager.mkNew 0) 0 false
    0 0 hw
  have hlook : dictLookup (ModelManager.mkNew 0).loaded_models "X"
      = none := rfl
  refine ⟨?_, ?_, ?_, ?_⟩ <;>
    simp [runTwoLoads, loadPhase, hps, hlook]

/-- C9 amended: the cache holds no lock, so overlapping concurrent
`load_model` calls for the same name can each invoke the factory and
return different handles (see the interleaving above); when the calls are
serialized — each completes before the next begins — the factory is
invoked exactly once and both calls return the handle produced by the
first. -/
theorem serialized_loads_invoke_factory_once {ε : Type}
    (mm : ModelManager) (name : String) (h1 h2 : Handle)
    (rss rss' : Nat) (cuda cuda' : Bool)
    (tNow tGc tEvict tNow' tGc' tEvict' : ℚ)
    (hl : dictLookup mm.loaded_models name = none) :
    (mm.load_model name (Except.ok h1 : Except ε Handle) rss cuda
      tNow tGc tEvict).1 = Except.ok h1 ∧
    ((mm.load_model name (Except.ok h1 : Except ε Handle) rss cuda
        tNow tGc tEvict).2.1.load_model name
        (Except.ok h2 : Except ε Handle) rss' cuda'
        tNow' tGc' tEvict').1 = Except.ok h1 ∧
    List.count Effect.factoryInvoked
      ((mm.load_model name (Except.ok h1 : Except ε Handle) rss cuda
          tNow tGc tEvict).2.2
        ++ ((mm.load_model name (Except.ok h1 : Except ε Handle) rss cuda
          tNow tGc tEvict).2.1.load_model name
          (Except.ok h2 : Except ε Handle) rss' cuda'
          tNow' tGc' tEvict').2.2) = 1 := by
  have hs1 : dictLookup (mm.load_model name
      (Except.ok h1 : Except ε Handle) rss cuda
      tNow tGc tEvict).2.1.loaded_models name = some h1 := by
    rw [load_model_miss_ok_eq mm name h1 rss cuda tNow tGc tEvict hl]
    exact dictLookup_dictSet_self _ _ _
  refine ⟨?_, ?_, ?_⟩
  · rw [load_model_miss_ok_eq mm name h1 rss cuda tNow tGc tEvict hl]
  · rw [load_model_hit_eq _ name h1 _ rss' cuda' tNow' tGc' tEvict' hs1]
  · rw [load_model_hit_eq _ name h1 _ rss' cuda' tNow' tGc' tEvict' hs1]
    rw [load_model_miss_ok_eq mm name h1 rss cuda tNow tGc tEvict hl]
    rw [List.count_append, List.count_append]
    rw [List.count_eq_zero.mpr (pressureStep_no_factory mm rss cuda
      tGc tEvict)]
    simp

/-- C9 amended witness: two serialized loads of `"X"` on a fresh
manager. -/
theorem serialized_loads_invoke_factory_once_witness :
    ((ModelManager.mkNew 0).load_model "X"
      (Except.ok ⟨1, false, false⟩ : Except String Handle)
      0 false 1 1 1).1 = Except.ok ⟨1, false, false⟩ ∧
    (((ModelManager.mkNew 0).load_model "X"
        (Except.ok ⟨1, false, false⟩ : Except String Handle)
        0 false 1 1 1).2.1.load_model "X"
        (Except.ok ⟨2, false, false⟩ : Except String Handle)
        0 false 2 2 2).1 = Except.ok ⟨1, false, false⟩ ∧
    List.count Effect.factoryInvoked
      (((ModelManager.mkNew 0).load_model "X"
          (Except.ok ⟨1, false, false⟩ : Except String Handle)
          0 false 1 1 1).2.2
        ++ (((ModelManager.mkNew 0).load_model "X"
          (Except.ok ⟨1, false, false⟩ : Except String Handle)
          0 false 1 1 1).2.1.load_model "X"
          (Except.ok ⟨2, false, false⟩ : Except String Handle)
          0 false 2 2 2).2.2) = 1 :=
  serialized_loads_invoke_factory_once (ModelManager.mkNew 0) "X"
    ⟨1, false, false⟩ ⟨2, false, false⟩ 0 0 false false
    1 1 1 2 2 2 (by rfl)

/-- Helper: updating only the access timestamp of a loaded name
preserves the key-set invariant. -/
theorem sameKeys_touch (mm : ModelManager) (name : String) (h : Handle)
    (t : ℚ) (hh : dictLookup mm.loaded_models name = some h)
    (hinv : mm.sameKeys) :
    ModelManager.sameKeys
      { mm with model_access_time :=
          dictSet mm.model_access_time name t } := by
  intro k
  by_cases hk : k = name
  · subst hk
    show (dictLookup mm.loaded_models k).isSome ↔
      (dictLookup (dictSet mm.model_access_time k t) k).isSome
    rw [hh, dictLookup_dictSet_self]
    simp
  · show (dictLookup mm.loaded_models k).isSome ↔
      (dictLookup (dictSet mm.model_access_time name t) k).isSome
    rw [dictLookup_dictSet_ne _ _ _ _ hk]
    exact hinv k

/-- Helper: inserting a name into both tables preserves the key-set
invariant. -/
theorem sameKeys_set_both (mm : ModelManager) (name : String) (h : Handle)
    (t : ℚ) (hinv : mm.sameKeys) :
    ModelManager.sameKeys
      { mm with
          loaded_models := dictSet mm.loaded_models name h
          model_access_time := dictSet mm.model_access_time name t } := by
  intro k
  by_cases hk : k = name
  · subst hk
    show (dictLookup (dictSet mm.loaded_models k h) k).isSome ↔
      (dictLookup (dictSet mm.model_access_time k t) k).isSome
    rw [dictLookup_dictSet_self, dictLookup_dictSet_self]
    simp
  · show (dictLookup (dictSet mm.loaded_models name h) k).isSome ↔
      (dictLookup (dictSet mm.model_access_time name t) k).isSome
    rw [dictLookup_dictSet_ne _ _ _ _ hk, dictLookup_dictSet_ne _ _ _ _ hk]
    exact hinv k

/-- C10: every `ModelManager` operation preserves the invariant that
`loaded_models` and `model_access_time` hold exactly the same keys; in
particular after `cleanup_all_models` both tables are empty. -/
theorem model_manager_preserves_sameKeys {ε : Type} (mm : ModelManager)
    (name : String) (factory : Except ε Handle) (rss : Nat) (cuda : Bool)
    (tNow tGc tEvict now : ℚ) (hinv : mm.sameKeys) :
    (mm.load_model name factory rss cuda tNow tGc tEvict).2.1.sameKeys ∧
    (mm.unload_model name cuda).1.sameKeys ∧
    (mm.get_model name now).2.sameKeys ∧
    (mm.unload_idle_models now cuda).1.sameKeys ∧
    (mm.cleanup_all_models cuda).1.sameKeys ∧
    (mm.cleanup_all_models cuda).1.loaded_models = [] ∧
    (mm.cleanup_all_models cuda).1.model_access_time = [] := by
  have hcsk : (mm.cleanup_all_models cuda).1.sameKeys := by
    simp only [ModelManager.cleanup_all_models]
    exact unloadNames_sameKeys _ mm cuda hinv
  have hclear : (mm.cleanup_all_models cuda).1.loaded_models = [] := by
    simp only [ModelManager.cleanup_all_models]
    refine unloadNames_clears _ mm cuda ?_
    intro p hp
    exact List.mem_map_of_mem Prod.fst hp
  have haccess : (mm.cleanup_all_models cuda).1.model_access_time
      = [] := by
    apply eq_nil_of_lookup_none
    intro k
    have h1 := hcsk k
    rw [hclear] at h1
    have h2 : ¬ (dictLookup
        (mm.cleanup_all_models cuda).1.model_access_time k).isSome := by
      rw [← h1]
      simp [dictLookup]
    exact Option.not_isSome_iff_eq_none.mp h2
  refine ⟨?_, unload_model_sameKeys mm name cuda hinv, ?_, ?_, hcsk,
    hclear, haccess⟩
  · cases hh : dictLookup mm.loaded_models name with
    | some h =>
        rw [load_model_hit_eq mm name h factory rss cuda tNow tGc
          tEvict hh]
        exact sameKeys_touch mm name h tNow hh hinv
    | none =>
        cases factory with
        | error e =>
            simp only [ModelManager.load_model, hh]
            exact pressureStep_sameKeys mm rss cuda tGc tEvict hinv
        | ok h =>
            rw [load_model_miss_ok_eq mm name h rss cuda tNow tGc
              tEvict hh]
            exact sameKeys_set_both _ name h tNow
              (pressureStep_sameKeys mm rss cuda tGc tEvict hinv)
  · cases hh : dictLookup mm.loaded_models name with
    | some h =>
        simp only [ModelManager.get_model, hh]
        exact sameKeys_touch mm name h now hh hinv
    | none =>
        simp only [ModelManager.get_model, hh]
        exact hinv
  · simp only [ModelManager.unload_idle_models]
    exact unloadNames_sameKeys _ mm cuda hinv

/-- C10 witness: on a fresh manager, `cleanup_all_models` leaves both
tables empty. -/
theorem model_manager_preserves_sameKeys_witness :
    ((ModelManager.mkNew 0).cleanup_all_models false).1.loaded_models
      = [] ∧
    ((ModelManager.mkNew 0).cleanup_all_models false).1.model_access_time
      = [] :=
  (model_manager_preserves_sameKeys (ModelManager.mkNew 0) "m"
    (Except.ok ⟨1, false, false⟩ : Except String Handle) 0 false
    0 0 0 0 (fun _ => Iff.rfl)).2.2.2.2.2
